import Mathlib

/-!
Verification of the transactional reconciliation engine and the resilient
connection-acquisition layer of the rag-ingestor function.

The embedding follows `src/main.py` (`_validate_table_exists`,
`_process_database_transaction`) and `src/func.py` (`_get_db_engine`).
Database side effects are modelled explicitly: a table is a list of rows,
each SQL statement is a value, and a transaction executes statements against
a working copy of the table that becomes visible only on commit.  A failure
oracle (`failAt : Option Nat`) says which executed statement, if any, raises
a `SQLAlchemyError`, so atomicity can be stated for every failure point.
-/

namespace RagIngestor

/-- JSON metadata object of a chunk, restricted to the string-valued fields
the engine reads (only `metadata["source"]` is ever consumed). -/
abbrev Metadata := List (String × String)

/-- One element of `payload["chunks_to_upsert"]`.  Fields are optional
because the code accesses them with `.get`, except `metadata["source"]`
whose missing-key behaviour (a `KeyError`) is modelled separately. -/
structure Chunk where
  id : Option String
  document : Option String
  metadata : Option Metadata
  embedding : Option (List Int)
deriving DecidableEq, Repr

/-- A persisted row of the target table: columns `id`, `content`,
`metadata`, `embedding` (main.py line 275). -/
structure Row where
  id : Option String
  content : Option String
  metadata : Option Metadata
  embedding : Option (List Int)
deriving DecidableEq, Repr

/-- The state of the target table. -/
abbrev DbTable := List Row

/-- The parsed ingestion payload.  `table_name = none` models a payload with
no `table_name` key; absent `chunks_to_upsert` / `files_to_delete` default to
`[]` exactly as `payload.get(..., [])` does. -/
structure Payload where
  table_name : Option String
  chunks_to_upsert : List Chunk
  files_to_delete : List String
deriving DecidableEq, Repr

/-- `metadata->>"source"` of a persisted row: NULL when the row has no
metadata object or the object has no `source` key (such rows never match the
delete conditions, mirroring SQL three-valued logic on `= NULL`). -/
def Row.source (r : Row) : Option String :=
  r.metadata.bind (fun m => m.lookup "source")

/-- `c["metadata"]["source"]` for a chunk; `none` models the `KeyError`
raised when the chunk lacks a `metadata` key or its metadata lacks
`source` (main.py line 287). -/
def chunkSource (c : Chunk) : Option String :=
  c.metadata.bind (fun m => m.lookup "source")

/-- Truthiness of `c.get("document")`: present and non-empty. -/
def docTruthy : Option String → Bool
  | none => false
  | some d => !(d == "")

/-- Truthiness test used by the insertion filter (main.py line 293). -/
def hasDocument (c : Chunk) : Bool := docTruthy c.document

/-- The record built for insertion from a chunk (main.py line 293). -/
def chunkRecord (c : Chunk) : Row :=
  { id := c.id, content := c.document, metadata := c.metadata,
    embedding := c.embedding }

/-- `[{...} for c in chunks_to_upsert if c.get("document")]`
(main.py line 293). -/
def records_to_insert (chunks : List Chunk) : List Row :=
  (chunks.filter hasDocument).map chunkRecord

/-- `set(c["metadata"]["source"] for c in chunks_to_upsert)` consumed
left to right; `none` models the `KeyError` escaping from the generator
(main.py line 287).  Deduplication is applied by the caller. -/
def collectSources : List Chunk → Option (List String)
  | [] => some []
  | c :: cs =>
    match chunkSource c, collectSources cs with
    | some s, some ss => some (s :: ss)
    | _, _ => none

/-- A word character of the table-name pattern `[a-zA-Z0-9_]`. -/
def isWordChar (c : Char) : Bool :=
  (decide ('a' ≤ c) && decide (c ≤ 'z')) ||
  (decide ('A' ≤ c) && decide (c ≤ 'Z')) ||
  (decide ('0' ≤ c) && decide (c ≤ '9')) ||
  (c == '_')

/-- Match of `[a-zA-Z0-9_]+$` against the part of the name after the fixed
prefix.  Python `$` also matches just before one trailing newline, which
`re.match` therefore accepts. -/
def restOk (cs : List Char) : Bool :=
  if cs.getLast? == some '\n' then
    !cs.dropLast.isEmpty && cs.dropLast.all isWordChar
  else
    !cs.isEmpty && cs.all isWordChar

/-- `re.match` of the pattern `^codebase_collection_[a-zA-Z0-9_]+$` on the name
(main.py line 257). -/
def validTableName (s : String) : Bool :=
  let pfx := "codebase_collection_".toList
  let cs := s.toList
  pfx.isPrefixOf cs && restOk (cs.drop pfx.length)

/-- Errors the call can raise.  In the source all of these are `ValueError`
(spec: `ValidationError`) except `txn`, which wraps an error escaping the
transaction body. -/
inductive TxnError | sqlError | keyError
deriving DecidableEq, Repr

inductive ProcErr
  | missingTableName
  | invalidTableName
  | tableNotFound
  | txn (e : TxnError)
deriving DecidableEq, Repr

/-- The spec groups the three pre-transaction failures as `ValidationError`. -/
def ProcErr.isValidationError : ProcErr → Bool
  | .missingTableName => true
  | .invalidTableName => true
  | .tableNotFound => true
  | .txn _ => false

/-- `_validate_table_exists` (main.py lines 256-265): syntactic check, then
existence in the schema catalog (modelled as the list of provisioned table
names).  Runs on the connection before any transaction is begun. -/
def validate_table_exists (catalog : List String) (tn : String) :
    Except ProcErr Unit :=
  if validTableName tn then
    if catalog.contains tn then .ok () else .error .tableNotFound
  else .error .invalidTableName

/-- A mutating SQL statement executed inside the transaction. -/
inductive Stmt
  | del (sources : List String)
  | ins (rows : List Row)
deriving DecidableEq, Repr

def Stmt.isIns : Stmt → Bool
  | .ins _ => true
  | .del _ => false

/-- Semantics of `DELETE FROM t USING (VALUES ...) v WHERE
t.metadata->>"source" = v.source_file`: a row is removed iff its source is
non-NULL and appears in the list (main.py lines 283-284, 290-291). -/
def applyDelete (sources : List String) (t : DbTable) : DbTable :=
  t.filter fun r =>
    match r.source with
    | some s => !sources.contains s
    | none => true

/-- Effect of one statement on the working table. -/
def applyStmt : Stmt → DbTable → DbTable
  | .del sources, t => applyDelete sources t
  | .ins rows, t => t ++ rows

/-- Working state of one open transaction: the uncommitted table plus
counters of executed mutating statements (total and inserts). -/
structure ExecState where
  table : DbTable
  nExec : Nat
  nInserts : Nat
deriving DecidableEq, Repr

/-- `connection.execute(stmt)` under the failure oracle: statement number
`es.nExec` of the call raises `SQLAlchemyError` iff `failAt` names it. -/
def execStmt (failAt : Option Nat) (s : Stmt) (es : ExecState) :
    Except (TxnError × ExecState) ExecState :=
  if failAt == some es.nExec then .error (.sqlError, es)
  else .ok { table := applyStmt s es.table, nExec := es.nExec + 1,
             nInserts := es.nInserts + (if s.isIns then 1 else 0) }

/-- `records_to_insert[i:i+batch_size]` slices of the insertion loop
(main.py lines 298-299). -/
def toBatches (bs : Nat) (l : List α) : List (List α) :=
  match l with
  | [] => []
  | x :: xs => (x :: xs.take (bs - 1)) :: toBatches bs (xs.drop (bs - 1))
termination_by l.length
decreasing_by
  simp only [List.length_cons, List.length_drop]
  omega

/-- The batched insertion loop (main.py lines 298-300): one
`connection.execute(insert_stmt, batch)` per batch. -/
def runBatches (failAt : Option Nat) :
    List (List Row) → ExecState → Except (TxnError × ExecState) ExecState
  | [], es => .ok es
  | b :: bsRest, es =>
    match execStmt failAt (.ins b) es with
    | .error e => .error e
    | .ok es2 => runBatches failAt bsRest es2

/-- Body of `with connection.begin()` (main.py lines 280-300): delete the
explicit `files_to_delete`, compute the distinct touched sources (KeyError
if a chunk lacks `metadata`/`source`), delete those sources, then insert the
filtered records in batches of 500. -/
def txnBody (failAt : Option Nat) (chunks : List Chunk)
    (files : List String) (es0 : ExecState) :
    Except (TxnError × ExecState) ExecState := do
  let es1 ← if files.isEmpty then pure es0
            else execStmt failAt (.del files) es0
  if chunks.isEmpty then
    pure es1
  else
    match collectSources chunks with
    | none => .error (.keyError, es1)
    | some srcs =>
      let sources := srcs.dedup
      let es2 ← if sources.isEmpty then pure es1
                else execStmt failAt (.del sources) es1
      let records := records_to_insert chunks
      if records.isEmpty then pure es2
      else runBatches failAt (toBatches 500 records) es2

/-- Observable outcome of one `_process_database_transaction` call:
the raised error (if any), the table state visible after the call, how many
delete/insert statements were executed inside the call (whether or not they
survived), how many of them were inserts, and whether a transaction was
begun. -/
structure ProcResult where
  outcome : Except ProcErr Unit
  table : DbTable
  stmtsExecuted : Nat
  insertsExecuted : Nat
  txnOpened : Bool

/-- `_process_database_transaction` (main.py lines 267-306).  The `catalog`
stands for `information_schema.tables`; `failAt` injects a
`SQLAlchemyError` into the statement it names.  An error escaping the
transaction body leaves the visible table state unchanged: the explicit
`except SQLAlchemyError` handler rolls back, and any other exception is
rolled back by the `connection.begin()` context manager. -/
def process_database_transaction (catalog : List String)
    (failAt : Option Nat) (p : Payload) (st : DbTable) : ProcResult :=
  match p.table_name with
  | none =>
    { outcome := .error .missingTableName, table := st,
      stmtsExecuted := 0, insertsExecuted := 0, txnOpened := false }
  | some tn =>
    if tn == "" then
      { outcome := .error .missingTableName, table := st,
        stmtsExecuted := 0, insertsExecuted := 0, txnOpened := false }
    else
      match validate_table_exists catalog tn with
      | .error e =>
        { outcome := .error e, table := st,
          stmtsExecuted := 0, insertsExecuted := 0, txnOpened := false }
      | .ok _ =>
        match txnBody failAt p.chunks_to_upsert p.files_to_delete
            { table := st, nExec := 0, nInserts := 0 } with
        | .ok es =>
          { outcome := .ok (), table := es.table,
            stmtsExecuted := es.nExec, insertsExecuted := es.nInserts,
            txnOpened := true }
        | .error (e, es) =>
          { outcome := .error (.txn e), table := st,
            stmtsExecuted := es.nExec, insertsExecuted := es.nInserts,
            txnOpened := true }

/-- An opaque pooled engine object returned by `create_engine`. -/
structure EngineHandle where
  engineId : Nat
deriving DecidableEq, Repr

/-- What happens inside the `try` of one attempt of the `_get_db_engine`
rebuild loop (func.py lines 104-134), in program order:
* `fetchFailed` — the signer / secrets-client call raises (transient
  network or auth failure), before any secret content is seen;
* `secretMalformed` — base64 decoding, JSON parsing, or the pydantic
  `DbSecret` validation of the fetched secret raises;
* `buildValidationFailed e` — `create_engine` returned the handle `e`
  (already assigned to the global `db_engine`, func.py line 125) but the
  `SELECT version()` validation query raised;
* `ok e` — the handle `e` was built and its validation query succeeded.
All failing outcomes are caught by the same `except Exception` handler. -/
inductive AttemptOutcome
  | fetchFailed
  | secretMalformed
  | buildValidationFailed (e : EngineHandle)
  | ok (e : EngineHandle)
deriving DecidableEq, Repr

def AttemptOutcome.isFail : AttemptOutcome → Bool
  | .ok _ => false
  | _ => true

/-- A failing outcome that occurs before `create_engine` runs, so it cannot
overwrite the cached global handle. -/
def AttemptOutcome.isPreBuildFail : AttemptOutcome → Bool
  | .fetchFailed => true
  | .secretMalformed => true
  | _ => false

/-- Kind of the exception escaping `_get_db_engine` after the last
attempt. -/
inductive AcquireErr
  | transient
  | malformedSecret
  | validationQuery
  | loopExhausted
deriving DecidableEq, Repr

/-- Observable result of one `_get_db_engine` call: the returned handle or
raised error, the process-wide `db_engine` global after the call, and the
`time.sleep` durations performed, in order. -/
structure AcquireResult where
  outcome : Except AcquireErr EngineHandle
  cached : Option EngineHandle
  sleeps : List Nat

/-- `for attempt in range(max_retries)` (func.py lines 104-143).  The list
argument carries the remaining attempt indices.  On success the handle is
assigned to the global and returned; on failure the loop sleeps
`2 ** attempt` seconds and retries while `attempt < max_retries - 1`,
otherwise re-raises.  A `buildValidationFailed` outcome leaves its handle in
the global, because func.py line 125 assigns `db_engine` before the
validation query runs. -/
def rebuildLoop (env : Nat → AttemptOutcome) (maxRetries : Nat) :
    List Nat → Option EngineHandle → List Nat → AcquireResult
  | [], cached, sleeps =>
    { outcome := .error .loopExhausted, cached := cached, sleeps := sleeps }
  | a :: rest, cached, sleeps =>
    match env a with
    | .ok e => { outcome := .ok e, cached := some e, sleeps := sleeps }
    | .fetchFailed =>
      if a < maxRetries - 1 then
        rebuildLoop env maxRetries rest cached (sleeps ++ [2 ^ a])
      else { outcome := .error .transient, cached := cached, sleeps := sleeps }
    | .secretMalformed =>
      if a < maxRetries - 1 then
        rebuildLoop env maxRetries rest cached (sleeps ++ [2 ^ a])
      else { outcome := .error .malformedSecret, cached := cached,
             sleeps := sleeps }
    | .buildValidationFailed e =>
      if a < maxRetries - 1 then
        rebuildLoop env maxRetries rest (some e) (sleeps ++ [2 ^ a])
      else { outcome := .error .validationQuery, cached := some e,
             sleeps := sleeps }

/-- `_get_db_engine` (func.py lines 91-143).  `cached` is the process-wide
`db_engine` global on entry; `probeLive` is the result of the `SELECT 1`
liveness probe on the cached handle for this call (`false` models the
`OperationalError` path, which discards the handle before rebuilding);
`env a` is what attempt `a` of the rebuild loop does. -/
def get_db_engine (probeLive : Bool) (env : Nat → AttemptOutcome)
    (cached : Option EngineHandle) : AcquireResult :=
  match cached with
  | some e =>
    if probeLive then { outcome := .ok e, cached := some e, sleeps := [] }
    else rebuildLoop env 3 [0, 1, 2] none []
  | none => rebuildLoop env 3 [0, 1, 2] none []

/-- Table state after the `files_to_delete` step (main.py lines 281-285):
unchanged when the list is empty, otherwise the delete statement ran. -/
def delFiles (files : List String) (st : DbTable) : DbTable :=
  if files.isEmpty then st else applyDelete files st

/-- Number of statements the `files_to_delete` step executes. -/
def delFilesCount (files : List String) : Nat :=
  if files.isEmpty then 0 else 1

/-! ## Helper lemmas -/

theorem execStmt_none (s : Stmt) (es : ExecState) :
    execStmt none s es =
      .ok { table := applyStmt s es.table, nExec := es.nExec + 1,
            nInserts := es.nInserts + (if s.isIns then 1 else 0) } := rfl

theorem runBatches_none (bsList : List (List Row)) (es : ExecState) :
    runBatches none bsList es =
      .ok { table := es.table ++ bsList.flatten,
            nExec := es.nExec + bsList.length,
            nInserts := es.nInserts + bsList.length } := by
  induction bsList generalizing es with
  | nil => simp [runBatches]
  | cons b rest ih =>
    rw [runBatches, execStmt_none]
    dsimp only
    rw [ih]
    simp only [applyStmt, Stmt.isIns, List.flatten_cons, List.length_cons,
      Except.ok.injEq, ExecState.mk.injEq, List.append_assoc, if_true,
      true_and]
    exact ⟨by omega, by omega⟩

theorem flatten_toBatches {α : Type} (bs : Nat) (l : List α) :
    (toBatches bs l).flatten = l := by
  have H : ∀ n (l : List α), l.length ≤ n → (toBatches bs l).flatten = l := by
    intro n
    induction n with
    | zero =>
      intro l hl
      have hnil : l = [] := List.length_eq_zero.mp (Nat.le_zero.mp hl)
      subst hnil
      simp [toBatches]
    | succ n ih =>
      intro l hl
      match l with
      | [] => simp [toBatches]
      | x :: xs =>
        simp only [toBatches, List.flatten_cons]
        rw [ih _ (by simp only [List.length_drop]
                     simp only [List.length_cons] at hl
                     omega)]
        simp [List.take_append_drop]
  exact H l.length l le_rfl

theorem length_toBatches {α : Type} (bs : Nat) (hbs : 0 < bs) (l : List α) :
    (toBatches bs l).length = (l.length + bs - 1) / bs := by
  have H : ∀ n (l : List α), l.length ≤ n →
      (toBatches bs l).length = (l.length + bs - 1) / bs := by
    intro n
    induction n with
    | zero =>
      intro l hl
      have hnil : l = [] := List.length_eq_zero.mp (Nat.le_zero.mp hl)
      subst hnil
      simp [toBatches, Nat.div_eq_of_lt (show bs - 1 < bs by omega)]
    | succ n ih =>
      intro l hl
      match l with
      | [] =>
        simp [toBatches, Nat.div_eq_of_lt (show bs - 1 < bs by omega)]
      | x :: xs =>
        simp only [toBatches, List.length_cons]
        rw [ih _ (by simp only [List.length_drop]
                     simp only [List.length_cons] at hl
                     omega)]
        simp only [List.length_drop, List.length_cons]
        have hrhs : xs.length + 1 + bs - 1 = xs.length + bs := by omega
        rw [hrhs, Nat.add_div_right _ hbs]
        rcases le_or_lt (bs - 1) xs.length with hle | hlt
        · have heq : xs.length - (bs - 1) + bs - 1 = xs.length := by omega
          rw [heq]
        · have h0 : xs.length - (bs - 1) = 0 := by omega
          rw [h0, Nat.div_eq_of_lt (show 0 + bs - 1 < bs by omega),
            Nat.div_eq_of_lt (show xs.length < bs by omega)]
  exact H l.length l le_rfl

theorem collectSources_mem {cs : List Chunk} {ss : List String}
    (h : collectSources cs = some ss) {c : Chunk} (hc : c ∈ cs) :
    ∃ s, chunkSource c = some s ∧ s ∈ ss := by
  induction cs generalizing ss with
  | nil => cases hc
  | cons c0 rest ih =>
    rw [collectSources] at h
    rcases h0 : chunkSource c0 with _ | s0 <;> rw [h0] at h
    · cases h
    · rcases hr : collectSources rest with _ | ss0 <;> rw [hr] at h
      · cases h
      · cases h
        rcases List.mem_cons.mp hc with hceq | hmem
        · exact ⟨s0, by rw [hceq, h0], List.mem_cons_self _ _⟩
        · obtain ⟨s, hs1, hs2⟩ := ih hr hmem
          exact ⟨s, hs1, List.mem_cons_of_mem _ hs2⟩

theorem collectSources_none_of_mem {cs : List Chunk} {c : Chunk}
    (hc : c ∈ cs) (h : chunkSource c = none) : collectSources cs = none := by
  induction cs with
  | nil => cases hc
  | cons c0 rest ih =>
    rw [collectSources]
    rcases List.mem_cons.mp hc with hceq | hmem
    · rw [show chunkSource c0 = none from hceq ▸ h]
    · rw [ih hmem]
      rcases chunkSource c0 with _ | s0 <;> rfl

theorem collectSources_ne_nil {cs : List Chunk} {ss : List String}
    (hne : cs ≠ []) (h : collectSources cs = some ss) : ss ≠ [] := by
  match cs with
  | [] => exact absurd rfl hne
  | c0 :: rest =>
    rw [collectSources] at h
    rcases h0 : chunkSource c0 with _ | s0 <;> rw [h0] at h
    · cases h
    · rcases hr : collectSources rest with _ | ss0 <;> rw [hr] at h
      · cases h
      · cases h; simp

theorem row_source_chunkRecord (c : Chunk) :
    (chunkRecord c).source = chunkSource c := rfl

theorem txnBody_none_nil (files : List String) (st : DbTable) :
    txnBody none [] files { table := st, nExec := 0, nInserts := 0 } =
      .ok { table := delFiles files st, nExec := delFilesCount files,
            nInserts := 0 } := by
  by_cases hf : files.isEmpty <;>
    simp [txnBody, hf, execStmt_none, delFiles, delFilesCount, applyStmt,
      Stmt.isIns, List.isEmpty_nil, pure, Except.pure, bind, Except.bind]

theorem txnBody_none_keyErr {chunks : List Chunk} (files : List String)
    (st : DbTable) (hne : chunks ≠ [])
    (hc : collectSources chunks = none) :
    txnBody none chunks files { table := st, nExec := 0, nInserts := 0 } =
      .error (.keyError,
        { table := delFiles files st, nExec := delFilesCount files,
          nInserts := 0 }) := by
  have hche : chunks.isEmpty = false := by
    simp only [List.isEmpty_eq_false]; exact hne
  by_cases hf : files.isEmpty <;>
    simp [txnBody, hf, hche, hc, execStmt_none, delFiles, delFilesCount,
      applyStmt, Stmt.isIns, pure, Except.pure, bind, Except.bind]

theorem txnBody_none_some {chunks : List Chunk} (files : List String)
    (st : DbTable) {srcs : List String} (hne : chunks ≠ [])
    (hc : collectSources chunks = some srcs) :
    txnBody none chunks files { table := st, nExec := 0, nInserts := 0 } =
      .ok { table := applyDelete srcs.dedup (delFiles files st) ++
              (toBatches 500 (records_to_insert chunks)).flatten,
            nExec := delFilesCount files + 1 +
              (toBatches 500 (records_to_insert chunks)).length,
            nInserts := (toBatches 500 (records_to_insert chunks)).length } := by
  have hche : chunks.isEmpty = false := by
    simp only [List.isEmpty_eq_false]; exact hne
  have hsne : srcs.dedup.isEmpty = false := by
    simp only [List.isEmpty_eq_false, ne_eq, List.dedup_eq_nil]
    exact collectSources_ne_nil hne hc
  by_cases hr : (records_to_insert chunks).isEmpty
  · have hrn : records_to_insert chunks = [] := List.isEmpty_iff.mp hr
    by_cases hf : files.isEmpty <;>
      simp [txnBody, hf, hche, hc, hsne, hr, hrn, execStmt_none, delFiles,
        delFilesCount, applyStmt, Stmt.isIns, toBatches, pure, Except.pure,
        bind, Except.bind]
  · by_cases hf : files.isEmpty <;>
      simp [txnBody, hf, hche, hc, hsne, hr, execStmt_none, runBatches_none,
        delFiles, delFilesCount, applyStmt, Stmt.isIns, pure, Except.pure,
        bind, Except.bind]

theorem process_ok_or_unchanged (catalog : List String)
    (failAt : Option Nat) (p : Payload) (st : DbTable) :
    (process_database_transaction catalog failAt p st).outcome = .ok () ∨
    (process_database_transaction catalog failAt p st).table = st := by
  cases hm : p.table_name with
  | none => right; simp [process_database_transaction, hm]
  | some tn =>
    simp only [process_database_transaction, hm]
    split
    · right; rfl
    · split
      · right; rfl
      · split
        · left; rfl
        · right; rfl

theorem process_eq_of_no_name (catalog : List String) (failAt : Option Nat)
    (p : Payload) (st : DbTable) (hm : p.table_name = none) :
    process_database_transaction catalog failAt p st =
      { outcome := .error .missingTableName, table := st, stmtsExecuted := 0,
        insertsExecuted := 0, txnOpened := false } := by
  simp [process_database_transaction, hm]

theorem process_eq_of_empty_name (catalog : List String) (failAt : Option Nat)
    (p : Payload) (st : DbTable) (hm : p.table_name = some "") :
    process_database_transaction catalog failAt p st =
      { outcome := .error .missingTableName, table := st, stmtsExecuted := 0,
        insertsExecuted := 0, txnOpened := false } := by
  simp [process_database_transaction, hm]

theorem process_eq_of_invalid_name (catalog : List String)
    (failAt : Option Nat) (p : Payload) (st : DbTable) (tn : String)
    (hm : p.table_name = some tn) (h0 : tn ≠ "")
    (h1 : validTableName tn = false) :
    process_database_transaction catalog failAt p st =
      { outcome := .error .invalidTableName, table := st, stmtsExecuted := 0,
        insertsExecuted := 0, txnOpened := false } := by
  simp [process_database_transaction, hm, validate_table_exists, h0, h1]

theorem process_eq_of_absent_table (catalog : List String)
    (failAt : Option Nat) (p : Payload) (st : DbTable) (tn : String)
    (hm : p.table_name = some tn) (h0 : tn ≠ "")
    (h1 : validTableName tn = true) (h2 : tn ∉ catalog) :
    process_database_transaction catalog failAt p st =
      { outcome := .error .tableNotFound, table := st, stmtsExecuted := 0,
        insertsExecuted := 0, txnOpened := false } := by
  simp [process_database_transaction, hm, validate_table_exists, h0, h1, h2]

theorem process_txn (catalog : List String) (failAt : Option Nat)
    (p : Payload) (st : DbTable) (tn : String) (hm : p.table_name = some tn)
    (h0 : tn ≠ "") (h1 : validTableName tn = true)
    (h2 : tn ∈ catalog) :
    process_database_transaction catalog failAt p st =
      match txnBody failAt p.chunks_to_upsert p.files_to_delete
          { table := st, nExec := 0, nInserts := 0 } with
      | .ok es =>
        { outcome := .ok (), table := es.table, stmtsExecuted := es.nExec,
          insertsExecuted := es.nInserts, txnOpened := true }
      | .error (e, es) =>
        { outcome := .error (.txn e), table := st, stmtsExecuted := es.nExec,
          insertsExecuted := es.nInserts, txnOpened := true } := by
  simp [process_database_transaction, hm, validate_table_exists, h0, h1, h2]

theorem filter_source_applyDelete (sources : List String) (t : DbTable)
    (s : String) (hs : s ∈ sources) :
    (applyDelete sources t).filter (fun r => r.source == some s) = [] := by
  rw [applyDelete, List.filter_filter, List.filter_eq_nil_iff]
  intro r _
  rcases hr : r.source with _ | s0 <;> simp [hr]
  intro hss
  subst hss
  exact hs

theorem rebuildLoop_ok_inv (env : Nat → AttemptOutcome) (m : Nat)
    (attempts : List Nat) (cached : Option EngineHandle) (sleeps : List Nat)
    (e : EngineHandle)
    (h : (rebuildLoop env m attempts cached sleeps).outcome = .ok e) :
    ∃ a ∈ attempts, env a = .ok e := by
  induction attempts generalizing cached sleeps with
  | nil => simp [rebuildLoop] at h
  | cons a rest ih =>
    rw [rebuildLoop] at h
    rcases ha : env a with _ | _ | e2 | e2 <;> rw [ha] at h <;>
      (try dsimp only at h)
    · split at h
      · obtain ⟨a2, ha2, he2⟩ := ih _ _ h
        exact ⟨a2, List.mem_cons_of_mem _ ha2, he2⟩
      · simp at h
    · split at h
      · obtain ⟨a2, ha2, he2⟩ := ih _ _ h
        exact ⟨a2, List.mem_cons_of_mem _ ha2, he2⟩
      · simp at h
    · split at h
      · obtain ⟨a2, ha2, he2⟩ := ih _ _ h
        exact ⟨a2, List.mem_cons_of_mem _ ha2, he2⟩
      · simp at h
    · rw [Except.ok.injEq] at h
      exact ⟨a, List.mem_cons_self _ _, by rw [ha, h]⟩

theorem process_table_unchanged_of_invalid (catalog : List String)
    (failAt : Option Nat) (p : Payload) (st : DbTable)
    (h : ¬ ∃ tn, p.table_name = some tn ∧ tn ≠ "" ∧
      validTableName tn = true ∧ tn ∈ catalog) :
    (process_database_transaction catalog failAt p st).table = st := by
  cases hm : p.table_name with
  | none => rw [process_eq_of_no_name catalog failAt p st hm]
  | some tn =>
    by_cases h0 : tn = ""
    · subst h0
      rw [process_eq_of_empty_name catalog failAt p st hm]
    · by_cases h1 : validTableName tn
      · by_cases h2 : tn ∈ catalog
        · exact absurd ⟨tn, hm, h0, h1, h2⟩ h
        · rw [process_eq_of_absent_table catalog failAt p st tn hm h0 h1 h2]
      · rw [process_eq_of_invalid_name catalog failAt p st tn hm h0
          (Bool.eq_false_iff.mpr h1)]

theorem get_db_engine_enters_loop (env : Nat → AttemptOutcome)
    (cached : Option EngineHandle) (probeLive : Bool)
    (henter : cached = none ∨ probeLive = false) :
    get_db_engine probeLive env cached = rebuildLoop env 3 [0, 1, 2] none [] := by
  rcases cached with _ | e0
  · rfl
  · rcases henter with h | h
    · cases h
    · subst h
      rfl

theorem rebuildLoop_step_fail (env : Nat → AttemptOutcome) (m a : Nat)
    (rest : List Nat) (cached : Option EngineHandle) (sleeps : List Nat)
    (ha : (env a).isFail = true) (hlt : a < m - 1) :
    rebuildLoop env m (a :: rest) cached sleeps =
      rebuildLoop env m rest
        (match env a with
         | .buildValidationFailed e2 => some e2
         | _ => cached)
        (sleeps ++ [2 ^ a]) := by
  rcases he : env a with _ | _ | e2 | e2
  · rw [rebuildLoop, he]
    dsimp only
    rw [if_pos hlt]
  · rw [rebuildLoop, he]
    dsimp only
    rw [if_pos hlt]
  · rw [rebuildLoop, he]
    dsimp only
    rw [if_pos hlt]
  · rw [he] at ha
    simp [AttemptOutcome.isFail] at ha

/-! ## Claims -/

/-- Claim C1: for every payload and every initial table state, if a
delete or insert statement executed inside the transaction fails, the
transaction is rolled back before the error propagates and the visible
database state after the call equals the state before the call. -/
theorem c1_rollback_on_statement_failure (catalog : List String)
    (failAt : Option Nat) (p : Payload) (st : DbTable) (e : TxnError)
    (h : (process_database_transaction catalog failAt p st).outcome =
      .error (.txn e)) :
    (process_database_transaction catalog failAt p st).table = st := by
  rcases process_ok_or_unchanged catalog failAt p st with hok | hst
  · rw [h] at hok
    cases hok
  · exact hst

/-- Witness for C1: the injected failure of statement 0 (the
`files_to_delete` delete) raises, and the pre-populated row survives. -/
theorem c1_rollback_witness :
    (process_database_transaction ["codebase_collection_x"] (some 0)
        { table_name := some "codebase_collection_x", chunks_to_upsert := [],
          files_to_delete := ["a.py"] }
        [{ id := some "r1", content := some "c",
           metadata := some [("source", "a.py")], embedding := none }]).table =
      [{ id := some "r1", content := some "c",
         metadata := some [("source", "a.py")], embedding := none }] :=
  c1_rollback_on_statement_failure _ _ _ _ .sqlError rfl

/-- Claim C3: a payload whose table name fails the syntactic pattern or
names a table absent from the schema catalog raises a validation error, and
no delete or insert statement executes and no transaction is opened. -/
theorem c3_validation_blocks_mutation (catalog : List String)
    (failAt : Option Nat) (p : Payload) (st : DbTable) (tn : String)
    (hm : p.table_name = some tn)
    (hbad : validTableName tn = false ∨ tn ∉ catalog) :
    ∃ e, (process_database_transaction catalog failAt p st).outcome = .error e
      ∧ e.isValidationError = true
      ∧ (process_database_transaction catalog failAt p st).table = st
      ∧ (process_database_transaction catalog failAt p st).stmtsExecuted = 0
      ∧ (process_database_transaction catalog failAt p st).txnOpened = false := by
  by_cases h0 : tn = ""
  · subst h0
    rw [process_eq_of_empty_name catalog failAt p st hm]
    exact ⟨.missingTableName, rfl, rfl, rfl, rfl, rfl⟩
  · rcases hbad with h1 | h2
    · rw [process_eq_of_invalid_name catalog failAt p st tn hm h0 h1]
      exact ⟨.invalidTableName, rfl, rfl, rfl, rfl, rfl⟩
    · by_cases h1 : validTableName tn
      · rw [process_eq_of_absent_table catalog failAt p st tn hm h0 h1 h2]
        exact ⟨.tableNotFound, rfl, rfl, rfl, rfl, rfl⟩
      · rw [process_eq_of_invalid_name catalog failAt p st tn hm h0
          (Bool.eq_false_iff.mpr h1)]
        exact ⟨.invalidTableName, rfl, rfl, rfl, rfl, rfl⟩

/-- Witness for C3: a syntactically invalid name is rejected before any
statement runs. -/
theorem c3_validation_witness :
    ∃ e, (process_database_transaction [] none
        { table_name := some "bad name", chunks_to_upsert := [],
          files_to_delete := ["x.py"] }
        [{ id := some "r1", content := some "c",
           metadata := some [("source", "x.py")], embedding := none }]).outcome
        = .error e
      ∧ e.isValidationError = true
      ∧ (process_database_transaction [] none
        { table_name := some "bad name", chunks_to_upsert := [],
          files_to_delete := ["x.py"] }
        [{ id := some "r1", content := some "c",
           metadata := some [("source", "x.py")], embedding := none }]).table =
        [{ id := some "r1", content := some "c",
           metadata := some [("source", "x.py")], embedding := none }]
      ∧ (process_database_transaction [] none
        { table_name := some "bad name", chunks_to_upsert := [],
          files_to_delete := ["x.py"] }
        [{ id := some "r1", content := some "c",
           metadata := some [("source", "x.py")], embedding := none }]).stmtsExecuted = 0
      ∧ (process_database_transaction [] none
        { table_name := some "bad name", chunks_to_upsert := [],
          files_to_delete := ["x.py"] }
        [{ id := some "r1", content := some "c",
           metadata := some [("source", "x.py")], embedding := none }]).txnOpened = false :=
  c3_validation_blocks_mutation [] none _ _ "bad name" rfl
    (Or.inl (by decide))

/-- Claim C6: for every initial table state, a payload with empty
`chunks_to_upsert` and `files_to_delete = ["a.py"]` commits, deleting
exactly the rows whose `metadata.source` is `a.py` and leaving every other
row unchanged. -/
theorem c6_delete_only_removes_named_source (catalog : List String)
    (st : DbTable) (tn : String) (h0 : tn ≠ "")
    (h1 : validTableName tn = true) (h2 : tn ∈ catalog) :
    (process_database_transaction catalog none
        { table_name := some tn, chunks_to_upsert := [],
          files_to_delete := ["a.py"] } st).outcome = .ok ()
    ∧ (process_database_transaction catalog none
        { table_name := some tn, chunks_to_upsert := [],
          files_to_delete := ["a.py"] } st).table =
      st.filter (fun r => !(r.source == some "a.py")) := by
  rw [process_txn catalog none _ st tn rfl h0 h1 h2]
  dsimp only
  rw [txnBody_none_nil ["a.py"] st]
  refine ⟨rfl, ?_⟩
  have hpred : ∀ r : Row, (match r.source with
      | some s => !(["a.py"].contains s)
      | none => true) = !(r.source == some "a.py") := by
    intro r
    rcases hr : r.source with _ | s
    · rfl
    · by_cases hsa : s = "a.py"
      · subst hsa
        rfl
      · have hb : (s == "a.py") = false := beq_eq_false_iff_ne.mpr hsa
        simp [List.contains, hb]
        exact hsa
  show delFiles ["a.py"] st = _
  rw [delFiles]
  simp only [List.isEmpty_cons, if_false, Bool.false_eq_true, ite_false]
  rw [applyDelete]
  rw [show (fun r : Row => match r.source with
      | some s => !(["a.py"].contains s)
      | none => true) = (fun r : Row => !(r.source == some "a.py")) from
    funext hpred]

/-- Witness for C6: two rows, one for `a.py` and one for `b.py`; only the
`a.py` row is removed. -/
theorem c6_delete_only_witness :
    (process_database_transaction ["codebase_collection_x"] none
        { table_name := some "codebase_collection_x", chunks_to_upsert := [],
          files_to_delete := ["a.py"] }
        [{ id := some "r1", content := some "c",
           metadata := some [("source", "a.py")], embedding := none },
         { id := some "r2", content := some "c",
           metadata := some [("source", "b.py")], embedding := none }]).outcome
      = .ok ()
    ∧ (process_database_transaction ["codebase_collection_x"] none
        { table_name := some "codebase_collection_x", chunks_to_upsert := [],
          files_to_delete := ["a.py"] }
        [{ id := some "r1", content := some "c",
           metadata := some [("source", "a.py")], embedding := none },
         { id := some "r2", content := some "c",
           metadata := some [("source", "b.py")], embedding := none }]).table =
      [{ id := some "r1", content := some "c",
         metadata := some [("source", "a.py")], embedding := none },
       { id := some "r2", content := some "c",
         metadata := some [("source", "b.py")], embedding := none }].filter
        (fun r => !(r.source == some "a.py")) :=
  c6_delete_only_removes_named_source ["codebase_collection_x"] _
    "codebase_collection_x" (by decide) (by decide) (by decide)

/-- Claim C10: if any chunk of a non-empty `chunks_to_upsert` lacks a
`metadata` key or its metadata lacks `source`, the call raises the
`KeyError` from the distinct-source computation and commits nothing: the
visible table equals the initial state even though the `files_to_delete`
delete had already executed inside the transaction. -/
theorem c10_missing_source_key_rolls_back (catalog : List String)
    (p : Payload) (st : DbTable) (tn : String) (c : Chunk)
    (hm : p.table_name = some tn) (h0 : tn ≠ "")
    (h1 : validTableName tn = true) (h2 : tn ∈ catalog)
    (hc : c ∈ p.chunks_to_upsert) (hs : chunkSource c = none) :
    (process_database_transaction catalog none p st).outcome =
      .error (.txn .keyError)
    ∧ (process_database_transaction catalog none p st).table = st
    ∧ (process_database_transaction catalog none p st).stmtsExecuted =
        (if p.files_to_delete.isEmpty then 0 else 1)
    ∧ (process_database_transaction catalog none p st).txnOpened = true := by
  have hne : p.chunks_to_upsert ≠ [] := List.ne_nil_of_mem hc
  have hcs : collectSources p.chunks_to_upsert = none :=
    collectSources_none_of_mem hc hs
  rw [process_txn catalog none p st tn hm h0 h1 h2,
    txnBody_none_keyErr p.files_to_delete st hne hcs]
  exact ⟨rfl, rfl, rfl, rfl⟩

/-- Witness for C10: one chunk without a `metadata` key together with a
non-empty `files_to_delete`; the already-executed delete is rolled back. -/
theorem c10_missing_source_witness :
    (process_database_transaction ["codebase_collection_x"] none
        { table_name := some "codebase_collection_x",
          chunks_to_upsert := [{ id := some "1",
                                 document := some "doc",
                                 metadata := none,
                                 embedding := none }],
          files_to_delete := ["a.py"] }
        [{ id := some "r1", content := some "c",
           metadata := some [("source", "a.py")], embedding := none }]).outcome
      = .error (.txn .keyError)
    ∧ (process_database_transaction ["codebase_collection_x"] none
        { table_name := some "codebase_collection_x",
          chunks_to_upsert := [{ id := some "1",
                                 document := some "doc",
                                 metadata := none,
                                 embedding := none }],
          files_to_delete := ["a.py"] }
        [{ id := some "r1", content := some "c",
           metadata := some [("source", "a.py")], embedding := none }]).table =
      [{ id := some "r1", content := some "c",
         metadata := some [("source", "a.py")], embedding := none }]
    ∧ (process_database_transaction ["codebase_collection_x"] none
        { table_name := some "codebase_collection_x",
          chunks_to_upsert := [{ id := some "1",
                                 document := some "doc",
                                 metadata := none,
                                 embedding := none }],
          files_to_delete := ["a.py"] }
        [{ id := some "r1", content := some "c",
           metadata := some [("source", "a.py")], embedding := none }]).stmtsExecuted =
      (if (["a.py"] : List String).isEmpty then 0 else 1)
    ∧ (process_database_transaction ["codebase_collection_x"] none
        { table_name := some "codebase_collection_x",
          chunks_to_upsert := [{ id := some "1",
                                 document := some "doc",
                                 metadata := none,
                                 embedding := none }],
          files_to_delete := ["a.py"] }
        [{ id := some "r1", content := some "c",
           metadata := some [("source", "a.py")], embedding := none }]).txnOpened
      = true :=
  c10_missing_source_key_rolls_back ["codebase_collection_x"] _ _
    "codebase_collection_x" _ rfl (by decide) (by decide) (by decide)
    (List.mem_cons_self _ _) rfl

/-- Claim C2: reconciling the same `chunks_to_upsert` batch twice against an
initially empty table yields the same final row set as reconciling it once
(so no duplicates and the same row count per `metadata.source`): the second
delete-by-source step of the second run removes the rows of the first before
re-inserting them. -/
theorem c2_idempotent_upsert_replay (catalog : List String) (p : Payload)
    (hf : p.files_to_delete = []) :
    (process_database_transaction catalog none p
        (process_database_transaction catalog none p []).table).table =
      (process_database_transaction catalog none p []).table := by
  by_cases hval : ∃ tn, p.table_name = some tn ∧ tn ≠ "" ∧
      validTableName tn = true ∧ tn ∈ catalog
  · obtain ⟨tn, hm, h0, h1, h2⟩ := hval
    by_cases hch : p.chunks_to_upsert = []
    · have hrun : ∀ st,
          (process_database_transaction catalog none p st).table = st := by
        intro st
        rw [process_txn catalog none p st tn hm h0 h1 h2, hch, hf,
          txnBody_none_nil]
        rfl
      rw [hrun, hrun]
    · rcases hcs : collectSources p.chunks_to_upsert with _ | srcs
      · have hrun : ∀ st,
            (process_database_transaction catalog none p st).table = st := by
          intro st
          rw [process_txn catalog none p st tn hm h0 h1 h2,
            txnBody_none_keyErr p.files_to_delete st hch hcs]
        rw [hrun, hrun]
      · have hr1 : (process_database_transaction catalog none p []).table =
            records_to_insert p.chunks_to_upsert := by
          rw [process_txn catalog none p [] tn hm h0 h1 h2,
            txnBody_none_some p.files_to_delete [] hch hcs]
          dsimp only
          rw [flatten_toBatches, hf]
          rfl
        have hdel : applyDelete srcs.dedup
            (records_to_insert p.chunks_to_upsert) = [] := by
          rw [applyDelete, List.filter_eq_nil_iff]
          intro r hrmem
          obtain ⟨c, hcf, hceq⟩ := List.mem_map.mp hrmem
          have hcchunks : c ∈ p.chunks_to_upsert := (List.mem_filter.mp hcf).1
          obtain ⟨s, hs1, hs2⟩ := collectSources_mem hcs hcchunks
          rw [← hceq, row_source_chunkRecord, hs1]
          simp
          exact hs2
        rw [hr1, process_txn catalog none p _ tn hm h0 h1 h2,
          txnBody_none_some p.files_to_delete _ hch hcs]
        dsimp only
        rw [flatten_toBatches, hf]
        rw [show delFiles [] (records_to_insert p.chunks_to_upsert) =
          records_to_insert p.chunks_to_upsert from rfl]
        rw [hdel]
        rfl
  · have hrun : ∀ st,
        (process_database_transaction catalog none p st).table = st :=
      fun st => process_table_unchanged_of_invalid catalog none p st hval
    rw [hrun, hrun]

/-- Witness for C2: one chunk for `b.py` replayed on the table its first run
produced. -/
theorem c2_idempotent_witness :
    (process_database_transaction ["codebase_collection_x"] none
        { table_name := some "codebase_collection_x",
          chunks_to_upsert := [{ id := some "1",
                                 document := some "hello",
                                 metadata := some [("source", "b.py")],
                                 embedding := some [1] }],
          files_to_delete := [] }
        (process_database_transaction ["codebase_collection_x"] none
          { table_name := some "codebase_collection_x",
            chunks_to_upsert := [{ id := some "1",
                                   document := some "hello",
                                   metadata := some [("source", "b.py")],
                                   embedding := some [1] }],
            files_to_delete := [] } []).table).table =
      (process_database_transaction ["codebase_collection_x"] none
        { table_name := some "codebase_collection_x",
          chunks_to_upsert := [{ id := some "1",
                                 document := some "hello",
                                 metadata := some [("source", "b.py")],
                                 embedding := some [1] }],
          files_to_delete := [] } []).table :=
  c2_idempotent_upsert_replay _ _ rfl

/-- Claim C4: a chunk with a missing or empty `document` contributes no
inserted record, yet its `metadata.source` still enters the distinct source
set of the delete-before-insert step, so a successful run leaves for that
source exactly the newly inserted rows — every pre-existing row with that
source is deleted. -/
theorem c4_skipped_chunk_source_still_cleared (catalog : List String)
    (p : Payload) (st : DbTable) (tn : String) (c : Chunk) (s : String)
    (srcs : List String) (hm : p.table_name = some tn) (h0 : tn ≠ "")
    (h1 : validTableName tn = true) (h2 : tn ∈ catalog)
    (hc : c ∈ p.chunks_to_upsert) (hd : hasDocument c = false)
    (hs : chunkSource c = some s)
    (hcs : collectSources p.chunks_to_upsert = some srcs) :
    chunkRecord c ∉ records_to_insert p.chunks_to_upsert
    ∧ s ∈ srcs.dedup
    ∧ (process_database_transaction catalog none p st).outcome = .ok ()
    ∧ (process_database_transaction catalog none p st).table.filter
        (fun r => r.source == some s) =
      (records_to_insert p.chunks_to_upsert).filter
        (fun r => r.source == some s) := by
  have hne : p.chunks_to_upsert ≠ [] := List.ne_nil_of_mem hc
  have hsd : s ∈ srcs.dedup := by
    obtain ⟨s2, hs1, hs2⟩ := collectSources_mem hcs hc
    rw [hs] at hs1
    cases hs1
    exact List.mem_dedup.mpr hs2
  refine ⟨?_, hsd, ?_, ?_⟩
  · intro hmem
    obtain ⟨c2, hc2f, hc2eq⟩ := List.mem_map.mp hmem
    have hc2doc : hasDocument c2 = true := (List.mem_filter.mp hc2f).2
    have hdoceq : c2.document = c.document := by
      have hcontent := congrArg Row.content hc2eq
      simpa [chunkRecord] using hcontent
    rw [hasDocument, hdoceq] at hc2doc
    rw [hasDocument] at hd
    rw [hd] at hc2doc
    cases hc2doc
  · rw [process_txn catalog none p st tn hm h0 h1 h2,
      txnBody_none_some p.files_to_delete st hne hcs]
  · rw [process_txn catalog none p st tn hm h0 h1 h2,
      txnBody_none_some p.files_to_delete st hne hcs]
    dsimp only
    rw [flatten_toBatches, List.filter_append,
      filter_source_applyDelete srcs.dedup (delFiles p.files_to_delete st) s
        hsd,
      List.nil_append]

/-- Witness for C4: a documentless chunk for `a.py` against a table holding
one stale `a.py` row; the run succeeds, inserts nothing, and the stale row
is gone. -/
theorem c4_skipped_chunk_witness :
    chunkRecord { id := some "1", document := none,
                  metadata := some [("source", "a.py")], embedding := none } ∉
      records_to_insert [{ id := some "1", document := none,
                           metadata := some [("source", "a.py")],
                           embedding := none }]
    ∧ "a.py" ∈ (["a.py"] : List String).dedup
    ∧ (process_database_transaction ["codebase_collection_x"] none
        { table_name := some "codebase_collection_x",
          chunks_to_upsert := [{ id := some "1",
                                 document := none,
                                 metadata := some [("source", "a.py")],
                                 embedding := none }],
          files_to_delete := [] }
        [{ id := some "r1", content := some "stale",
           metadata := some [("source", "a.py")], embedding := none }]).outcome
      = .ok ()
    ∧ (process_database_transaction ["codebase_collection_x"] none
        { table_name := some "codebase_collection_x",
          chunks_to_upsert := [{ id := some "1",
                                 document := none,
                                 metadata := some [("source", "a.py")],
                                 embedding := none }],
          files_to_delete := [] }
        [{ id := some "r1", content := some "stale",
           metadata := some [("source", "a.py")], embedding := none }]).table.filter
        (fun r => r.source == some "a.py") =
      (records_to_insert [{ id := some "1", document := none,
                            metadata := some [("source", "a.py")],
                            embedding := none }]).filter
        (fun r => r.source == some "a.py") :=
  c4_skipped_chunk_source_still_cleared ["codebase_collection_x"]
    { table_name := some "codebase_collection_x",
      chunks_to_upsert := [{ id := some "1",
                             document := none,
                             metadata := some [("source", "a.py")],
                             embedding := none }],
      files_to_delete := [] }
    [{ id := some "r1", content := some "stale",
       metadata := some [("source", "a.py")], embedding := none }]
    "codebase_collection_x"
    { id := some "1", document := none,
      metadata := some [("source", "a.py")], embedding := none }
    "a.py" ["a.py"] rfl (by decide) (by decide)
    (by decide) (List.mem_cons_self _ _) rfl rfl rfl

/-- Claim C5: a successful run with `N > 0` filtered records executes
exactly `ceil(N/500)` insert statements, the batches concatenate back to
the record list (each record inserted exactly once), and all `N` records
are appended to the surviving rows. -/
theorem c5_batch_insert_completeness (catalog : List String) (p : Payload)
    (st : DbTable) (tn : String) (srcs : List String)
    (hm : p.table_name = some tn) (h0 : tn ≠ "")
    (h1 : validTableName tn = true) (h2 : tn ∈ catalog)
    (hcs : collectSources p.chunks_to_upsert = some srcs)
    (hN : 0 < (records_to_insert p.chunks_to_upsert).length) :
    (process_database_transaction catalog none p st).outcome = .ok ()
    ∧ (process_database_transaction catalog none p st).insertsExecuted =
        ((records_to_insert p.chunks_to_upsert).length + 499) / 500
    ∧ (toBatches 500 (records_to_insert p.chunks_to_upsert)).flatten =
        records_to_insert p.chunks_to_upsert
    ∧ (process_database_transaction catalog none p st).table =
        applyDelete srcs.dedup (delFiles p.files_to_delete st) ++
          records_to_insert p.chunks_to_upsert := by
  have hne : p.chunks_to_upsert ≠ [] := by
    intro hcon
    rw [hcon] at hN
    simp [records_to_insert] at hN
  refine ⟨?_, ?_, flatten_toBatches 500 _, ?_⟩
  · rw [process_txn catalog none p st tn hm h0 h1 h2,
      txnBody_none_some p.files_to_delete st hne hcs]
  · rw [process_txn catalog none p st tn hm h0 h1 h2,
      txnBody_none_some p.files_to_delete st hne hcs]
    dsimp only
    rw [length_toBatches 500 (by omega)]
    have harg : (records_to_insert p.chunks_to_upsert).length + 500 - 1 =
        (records_to_insert p.chunks_to_upsert).length + 499 := by omega
    rw [harg]
  · rw [process_txn catalog none p st tn hm h0 h1 h2,
      txnBody_none_some p.files_to_delete st hne hcs]
    dsimp only
    rw [flatten_toBatches]

/-- Witness for C5: a single record gives one insert statement,
`ceil(1/500) = 1`. -/
theorem c5_batch_insert_witness :
    (process_database_transaction ["codebase_collection_x"] none
        { table_name := some "codebase_collection_x",
          chunks_to_upsert := [{ id := some "1",
                                 document := some "hello",
                                 metadata := some [("source", "b.py")],
                                 embedding := some [1] }],
          files_to_delete := [] } []).outcome = .ok ()
    ∧ (process_database_transaction ["codebase_collection_x"] none
        { table_name := some "codebase_collection_x",
          chunks_to_upsert := [{ id := some "1",
                                 document := some "hello",
                                 metadata := some [("source", "b.py")],
                                 embedding := some [1] }],
          files_to_delete := [] } []).insertsExecuted =
      ((records_to_insert [{ id := some "1", document := some "hello",
                             metadata := some [("source", "b.py")],
                             embedding := some [1] }]).length + 499) / 500
    ∧ (toBatches 500 (records_to_insert [{ id := some "1",
                                           document := some "hello",
                                           metadata := some [("source", "b.py")],
                                           embedding := some [1] }])).flatten =
      records_to_insert [{ id := some "1", document := some "hello",
                           metadata := some [("source", "b.py")],
                           embedding := some [1] }]
    ∧ (process_database_transaction ["codebase_collection_x"] none
        { table_name := some "codebase_collection_x",
          chunks_to_upsert := [{ id := some "1",
                                 document := some "hello",
                                 metadata := some [("source", "b.py")],
                                 embedding := some [1] }],
          files_to_delete := [] } []).table =
      applyDelete (["b.py"] : List String).dedup (delFiles [] []) ++
        records_to_insert [{ id := some "1", document := some "hello",
                             metadata := some [("source", "b.py")],
                             embedding := some [1] }] :=
  c5_batch_insert_completeness ["codebase_collection_x"] _ _
    "codebase_collection_x" ["b.py"] rfl (by decide) (by decide) (by decide)
    rfl (by decide)

/-- Counterexample for C7: a secret that fails decoding/parsing/validation
on every attempt is retried through the backoff loop (the call sleeps
`2^0` and `2^1` seconds) instead of being surfaced immediately, refuting
"never retried ... without entering the bounded retry/backoff loop". -/
theorem c7_malformed_secret_retried_counterexample :
    (get_db_engine false (fun _ => AttemptOutcome.secretMalformed)
      none).sleeps = [1, 2]
    ∧ (get_db_engine false (fun _ => AttemptOutcome.secretMalformed)
        none).outcome = .error .malformedSecret := ⟨rfl, rfl⟩

/-- Amended C7: a secret whose decoding, parsing, or field validation fails
is handled by the same `except Exception` arm as transient failures: it is
retried up to 3 attempts with `2^attempt` backoff, and only after the final
attempt does the failure propagate; the cached global handle stays empty. -/
theorem c7_malformed_secret_is_retried (env : Nat → AttemptOutcome)
    (cached : Option EngineHandle) (probeLive : Bool)
    (henter : cached = none ∨ probeLive = false)
    (hmal : ∀ a, a < 3 → env a = .secretMalformed) :
    (get_db_engine probeLive env cached).outcome = .error .malformedSecret
    ∧ (get_db_engine probeLive env cached).sleeps = [2 ^ 0, 2 ^ 1]
    ∧ (get_db_engine probeLive env cached).cached = none := by
  have h0 := hmal 0 (by omega)
  have h1 := hmal 1 (by omega)
  have h2 := hmal 2 (by omega)
  rw [get_db_engine_enters_loop env cached probeLive henter,
    rebuildLoop_step_fail env 3 0 _ _ _ (by rw [h0]; rfl) (by norm_num), h0,
    rebuildLoop_step_fail env 3 1 _ _ _ (by rw [h1]; rfl) (by norm_num), h1,
    rebuildLoop, h2]
  exact ⟨rfl, rfl, rfl⟩

/-- Witness for the amended C7 at a concrete environment. -/
theorem c7_malformed_secret_witness :
    (get_db_engine true (fun _ => AttemptOutcome.secretMalformed)
      none).outcome = .error .malformedSecret
    ∧ (get_db_engine true (fun _ => AttemptOutcome.secretMalformed)
        none).sleeps = [2 ^ 0, 2 ^ 1]
    ∧ (get_db_engine true (fun _ => AttemptOutcome.secretMalformed)
        none).cached = none :=
  c7_malformed_secret_is_retried (fun _ => AttemptOutcome.secretMalformed)
    none true (Or.inl rfl) (fun _ _ => rfl)

/-- Claim C8: when the liveness probe of the cached handle fails, `acquire`
discards it, rebuilds through the retry loop, and — provided some attempt
within the budget of 3 succeeds — returns that freshly built and validated
handle with no error observed by the caller, caching it for next time. -/
theorem c8_stale_probe_transparent_rebuild (e0 e : EngineHandle)
    (env : Nat → AttemptOutcome) (k : Nat) (hk : k < 3)
    (hok : env k = .ok e) (hfail : ∀ j, j < k → (env j).isFail = true) :
    (get_db_engine false env (some e0)).outcome = .ok e
    ∧ (get_db_engine false env (some e0)).cached = some e := by
  rw [get_db_engine_enters_loop env (some e0) false (Or.inr rfl)]
  match k, hk with
  | 0, _ =>
    rw [rebuildLoop, hok]
    exact ⟨rfl, rfl⟩
  | 1, _ =>
    rw [rebuildLoop_step_fail env 3 0 _ _ _ (hfail 0 (by omega)) (by norm_num),
      rebuildLoop, hok]
    exact ⟨rfl, rfl⟩
  | 2, _ =>
    rw [rebuildLoop_step_fail env 3 0 _ _ _ (hfail 0 (by omega)) (by norm_num),
      rebuildLoop_step_fail env 3 1 _ _ _ (hfail 1 (by omega)) (by norm_num),
      rebuildLoop, hok]
    exact ⟨rfl, rfl⟩

/-- Witness for C8: attempt 0 fails transiently, attempt 1 builds and
validates handle 9; the stale handle 1 is replaced without error. -/
theorem c8_stale_probe_witness :
    (get_db_engine false
        (fun a => if a == 0 then AttemptOutcome.fetchFailed
                  else AttemptOutcome.ok { engineId := 9 })
        (some { engineId := 1 })).outcome = .ok { engineId := 9 }
    ∧ (get_db_engine false
        (fun a => if a == 0 then AttemptOutcome.fetchFailed
                  else AttemptOutcome.ok { engineId := 9 })
        (some { engineId := 1 })).cached = some { engineId := 9 } :=
  c8_stale_probe_transparent_rebuild { engineId := 1 } { engineId := 9 }
    (fun a => if a == 0 then AttemptOutcome.fetchFailed
              else AttemptOutcome.ok { engineId := 9 })
    1 (by omega) rfl
    (by
      intro j hj
      have hj0 : j = 0 := by omega
      subst hj0
      rfl)

/-- Counterexample for C9: when `create_engine` succeeds but the validation
query fails on every attempt, the final failed attempt raises fatally yet
the freshly constructed, unvalidated handle remains cached (func.py assigns
the global before validating, line 125), refuting "leaves no handle
cached". -/
theorem c9_unvalidated_handle_stays_cached_counterexample :
    (get_db_engine false
        (fun _ => AttemptOutcome.buildValidationFailed { engineId := 7 })
        none).outcome = .error .validationQuery
    ∧ (get_db_engine false
        (fun _ => AttemptOutcome.buildValidationFailed { engineId := 7 })
        none).cached = some { engineId := 7 }
    ∧ ¬ (get_db_engine false
        (fun _ => AttemptOutcome.buildValidationFailed { engineId := 7 })
        none).cached = none :=
  ⟨rfl, rfl, fun hcon => Option.noConfusion hcon⟩

/-- Amended C9: on each failed attempt with attempts remaining the manager
sleeps exactly `2^attempt` seconds and retries; after the final failed
attempt it raises fatally.  The cache is left empty when every failure
occurred before engine construction, but an attempt whose validation query
failed leaves its constructed, unvalidated handle cached.  (The companion
provenance theorem `c9_returned_handle_proven_live` covers the "never
returns an unproven handle" part.) -/
theorem c9_backoff_and_fatal_raise (env : Nat → AttemptOutcome)
    (cached : Option EngineHandle) (probeLive : Bool)
    (henter : cached = none ∨ probeLive = false)
    (hfail : ∀ a, a < 3 → (env a).isFail = true) :
    (∃ k, (get_db_engine probeLive env cached).outcome = .error k)
    ∧ (get_db_engine probeLive env cached).sleeps = [2 ^ 0, 2 ^ 1]
    ∧ ((∀ a, a < 3 → (env a).isPreBuildFail = true) →
        (get_db_engine probeLive env cached).cached = none)
    ∧ (∀ e2, env 2 = .buildValidationFailed e2 →
        (get_db_engine probeLive env cached).cached = some e2)
    ∧ (∀ e, ¬ (get_db_engine probeLive env cached).outcome = .ok e) := by
  have h0 := hfail 0 (by omega)
  have h1 := hfail 1 (by omega)
  have h2 := hfail 2 (by omega)
  rw [get_db_engine_enters_loop env cached probeLive henter,
    rebuildLoop_step_fail env 3 0 _ _ _ h0 (by norm_num),
    rebuildLoop_step_fail env 3 1 _ _ _ h1 (by norm_num)]
  refine ⟨?_, ?_, ?_, ?_, ?_⟩
  · rcases he2 : env 2 with _ | _ | e2 | e2
    · refine ⟨.transient, ?_⟩
      rw [rebuildLoop, he2]
      dsimp only
      rw [if_neg (by norm_num)]
    · refine ⟨.malformedSecret, ?_⟩
      rw [rebuildLoop, he2]
      dsimp only
      rw [if_neg (by norm_num)]
    · refine ⟨.validationQuery, ?_⟩
      rw [rebuildLoop, he2]
      dsimp only
      rw [if_neg (by norm_num)]
    · rw [he2] at h2
      simp [AttemptOutcome.isFail] at h2
  · rcases he2 : env 2 with _ | _ | e2 | e2
    · rw [rebuildLoop, he2]
      dsimp only
      rw [if_neg (by norm_num)]
      rfl
    · rw [rebuildLoop, he2]
      dsimp only
      rw [if_neg (by norm_num)]
      rfl
    · rw [rebuildLoop, he2]
      dsimp only
      rw [if_neg (by norm_num)]
      rfl
    · rw [he2] at h2
      simp [AttemptOutcome.isFail] at h2
  · intro hpre
    have hp0 := hpre 0 (by omega)
    have hp1 := hpre 1 (by omega)
    have hp2 := hpre 2 (by omega)
    rcases he0 : env 0 with _ | _ | e2 | e2 <;>
      rcases he1 : env 1 with _ | _ | e3 | e3 <;>
        rcases he2 : env 2 with _ | _ | e4 | e4 <;>
          rw [he0] at hp0 <;> rw [he1] at hp1 <;> rw [he2] at hp2 <;>
            (try simp [AttemptOutcome.isPreBuildFail] at hp0 hp1 hp2) <;>
            (try (rw [rebuildLoop, he2]
                  dsimp only
                  rw [if_neg (by norm_num)]
                  try rfl))
  · intro e2 he2
    rw [rebuildLoop, he2]
    dsimp only
    rw [if_neg (by norm_num)]
  · intro e
    rcases he2 : env 2 with _ | _ | e3 | e3
    · rw [rebuildLoop, he2]
      dsimp only
      rw [if_neg (by norm_num)]
      exact fun hcon => Except.noConfusion hcon
    · rw [rebuildLoop, he2]
      dsimp only
      rw [if_neg (by norm_num)]
      exact fun hcon => Except.noConfusion hcon
    · rw [rebuildLoop, he2]
      dsimp only
      rw [if_neg (by norm_num)]
      exact fun hcon => Except.noConfusion hcon
    · rw [he2] at h2
      simp [AttemptOutcome.isFail] at h2

/-- Witness for the amended C9 at a concrete all-transient environment. -/
theorem c9_backoff_witness :
    (∃ k, (get_db_engine false (fun _ => AttemptOutcome.fetchFailed)
      none).outcome = .error k)
    ∧ (get_db_engine false (fun _ => AttemptOutcome.fetchFailed)
        none).sleeps = [2 ^ 0, 2 ^ 1]
    ∧ ((∀ a, a < 3 →
          ((fun _ => AttemptOutcome.fetchFailed) a).isPreBuildFail = true) →
        (get_db_engine false (fun _ => AttemptOutcome.fetchFailed)
          none).cached = none)
    ∧ (∀ e2, (fun _ => AttemptOutcome.fetchFailed) 2 =
          AttemptOutcome.buildValidationFailed e2 →
        (get_db_engine false (fun _ => AttemptOutcome.fetchFailed)
          none).cached = some e2)
    ∧ (∀ e, ¬ (get_db_engine false (fun _ => AttemptOutcome.fetchFailed)
        none).outcome = .ok e) :=
  c9_backoff_and_fatal_raise (fun _ => AttemptOutcome.fetchFailed) none
    false (Or.inl rfl) (fun _ _ => rfl)

/-- Companion to the amended C9 (the part of the claim that does hold):
every handle `acquire` returns was proven live in that same call, either by
the liveness probe on the cached handle or by the validation query of the
attempt that built it. -/
theorem c9_returned_handle_proven_live (env : Nat → AttemptOutcome)
    (cached : Option EngineHandle) (probeLive : Bool) (e : EngineHandle)
    (h : (get_db_engine probeLive env cached).outcome = .ok e) :
    (cached = some e ∧ probeLive = true) ∨ ∃ a, a < 3 ∧ env a = .ok e := by
  rcases hc : cached with _ | e0
  · subst hc
    right
    have hloop : (rebuildLoop env 3 [0, 1, 2] none []).outcome = .ok e := h
    obtain ⟨a, ha, hae⟩ := rebuildLoop_ok_inv env 3 [0, 1, 2] none [] e hloop
    refine ⟨a, ?_, hae⟩
    simp at ha
    omega
  · subst hc
    by_cases hp : probeLive
    · subst hp
      left
      have heq : ({ outcome := .ok e0,
                    cached := some e0,
                    sleeps := [] } : AcquireResult).outcome = .ok e := h
      simp only [Except.ok.injEq] at heq
      exact ⟨by rw [heq], rfl⟩
    · right
      have hpf : probeLive = false := Bool.eq_false_iff.mpr hp
      subst hpf
      have hloop : (rebuildLoop env 3 [0, 1, 2] none []).outcome = .ok e := h
      obtain ⟨a, ha, hae⟩ := rebuildLoop_ok_inv env 3 [0, 1, 2] none [] e hloop
      refine ⟨a, ?_, hae⟩
      simp at ha
      omega

end RagIngestor
